import Mathlib

/-!
Shallow embedding of the value-coercion engine of `pydantic-core`
(files under `src/`): the JSON input representation and its `Input`
implementation (`input/input_json.rs`), the dict validator
(`validators/dict.rs`), the (older-API) list validator
(`validators/list.rs`), the date validator (`validators/date.rs`) and
the validation state / exactness machinery
(`validators/validation_state.rs`).

Helper files of the repository that are not part of the snapshot
(`input/shared.rs`, `input/return_enums.rs`, `input/datetime.rs`, the
`length_check!` macro of the full `list.rs`, `validators/mod.rs`) are
modelled from the specification; every such definition is marked
`Modelled from the spec:` in its doc comment.
-/

namespace PydanticCore

/-! ## Error model (`errors` module, as used by the sources) -/

/-- A location path segment (`LocItem`): a string key or an integer index. -/
inductive LocItem where
  | key (s : String)
  | index (i : Int)
deriving DecidableEq, Repr

/-- Error kinds (`ErrorType` / `ErrorKind`) used by the embedded sources.
Payload-carrying kinds keep only the payload the sources inspect. -/
inductive ErrorType where
  | stringType
  | bytesType
  | boolType
  | boolParsing
  | intType
  | intParsing
  | intFromFloat
  | finiteNumber
  | floatType
  | dictType
  | listType
  | tupleType
  | setType
  | frozenSetType
  | dateType
  | dateParsing (error : String)
  | datetimeType
  | datetimeParsing (error : String)
  | dateFromDatetimeParsing (error : String)
  | dateFromDatetimeInexact
  | datePast
  | dateFuture
  | listTooShort
  | listTooLong
  | tooShort
  | tooLong
deriving DecidableEq, Repr

/-- One field-level failure (`ValLineError`): an error kind plus the
location path. The input snapshot is not modelled (host diagnostic only). -/
structure ValLineError where
  errorType : ErrorType
  location : List LocItem
deriving DecidableEq, Repr

/-- `ValLineError::with_outer_location`: an enclosing validator prepends
its own segment as the error bubbles up. -/
def ValLineError.with_outer_location (e : ValLineError) (loc : LocItem) : ValLineError :=
  { e with location := loc :: e.location }

/-- `ValError`: a non-empty list of recoverable line errors, the `Omit`
control signal, or a fatal internal error (payload kept as a message). -/
inductive ValError where
  | lineErrors (errors : List ValLineError)
  | omit
  | internalErr (msg : String)
deriving DecidableEq, Repr

/-- `ValError::new(error_type, input)`: a single line error with an empty
location (the input snapshot is not modelled). -/
def ValError.new (errorType : ErrorType) : ValError :=
  .lineErrors [⟨errorType, []⟩]

/-- `ValResult<T>` as used throughout the sources. -/
abbrev ValResult (α : Type) := Except ValError α

/-! ## Exactness (`validators/validation_state.rs`) -/

/-- The three coercion tiers, exactly the `Exactness` enum. -/
inductive Exactness where
  | lax
  | strict
  | exact
deriving DecidableEq, Repr

/-- Rank of an exactness tier under the order Lax < Strict < Exact. -/
def Exactness.rank : Exactness → Nat
  | .lax => 0
  | .strict => 1
  | .exact => 2

/-- The lower (more lax) of two exactness tiers under Lax < Strict < Exact. -/
def Exactness.lower (a b : Exactness) : Exactness :=
  if a.rank ≤ b.rank then a else b

/-! ## Validation match (`input/return_enums.rs`, not in the snapshot) -/

/-- Modelled from the spec: `ValidationMatch<T>` (from `return_enums.rs`,
absent from the snapshot) tags a successful conversion with whether the
match was exact, strict or lax; this tag feeds union exactness ranking. -/
structure ValidationMatch (α : Type) where
  value : α
  exactness : Exactness
deriving DecidableEq, Repr

/-- `ValidationMatch::exact`. -/
def ValidationMatch.exact {α : Type} (v : α) : ValidationMatch α := ⟨v, .exact⟩

/-- `ValidationMatch::strict`. -/
def ValidationMatch.strict {α : Type} (v : α) : ValidationMatch α := ⟨v, .strict⟩

/-- `ValidationMatch.lax`. -/
def ValidationMatch.lax {α : Type} (v : α) : ValidationMatch α := ⟨v, .lax⟩

/-! ## JSON tree values (`input/parse_json.rs`, shape as used by
`input/input_json.rs`) -/

/-- A JSON float as observed by the embedded code: whether it is finite,
whether it is integral (`f % 1.0 == 0.0`), and its integer value when it
is integral. Floating point itself is not modelled; only these observations
are used by `float_as_int`. -/
structure JFloat where
  finite : Bool
  isInt : Bool
  intVal : Int
deriving DecidableEq, Repr

/-- The closed JSON tagged union `JsonInput`
{Null, Bool, Int, Uint, BigInt, Float, String, Array, Object}. -/
inductive JsonValue where
  | null
  | bool (b : Bool)
  | int (i : Int)
  | uint (u : Nat)
  | bigint (b : Int)
  | float (f : JFloat)
  | str (s : String)
  | array (items : List JsonValue)
  | obj (entries : List (String × JsonValue))

/-- `EitherInt` as produced by `JsonInput::validate_int`. -/
inductive EitherInt where
  | i64 (i : Int)
  | u64 (u : Nat)
  | bigInt (b : Int)
deriving DecidableEq, Repr

/-! ## Scalar coercion helpers (`input/shared.rs`, not in the snapshot) -/

/-- Modelled from the spec: `str_as_bool` (from `shared.rs`, absent from the
snapshot) accepts a small case-insensitive whitelist of boolean words and
otherwise reports a bool parsing failure. -/
def str_as_bool (s : String) : ValResult Bool :=
  let l := s.toLower
  if l = "true" ∨ l = "t" ∨ l = "yes" ∨ l = "y" ∨ l = "on" ∨ l = "1" then
    .ok true
  else if l = "false" ∨ l = "f" ∨ l = "no" ∨ l = "n" ∨ l = "off" ∨ l = "0" then
    .ok false
  else
    .error (ValError.new .boolParsing)

/-- Modelled from the spec: `int_as_bool` (from `shared.rs`, absent from the
snapshot) — numeric→bool accepts 0 and 1 only in lax mode; anything else is
a type error, not a value error. -/
def int_as_bool (i : Int) : ValResult Bool :=
  if i = 0 then .ok false
  else if i = 1 then .ok true
  else .error (ValError.new .boolType)

/-- Modelled from the spec: `float_as_int` (from `shared.rs`, absent from the
snapshot) — lax int coercion accepts integral finite floats; a non-finite
float is a finite-number error and a non-integral float an int-from-float
error. -/
def float_as_int (f : JFloat) : ValResult Int :=
  if !f.finite then .error (ValError.new .finiteNumber)
  else if f.isInt then .ok f.intVal
  else .error (ValError.new .intFromFloat)

/-- Modelled from the spec: a non-empty run of decimal digits read as a
natural number; anything else is no number. -/
def digits_as_nat (cs : List Char) : Option Nat :=
  if cs = [] then none
  else
    cs.foldl
      (fun acc c =>
        match acc with
        | none => none
        | some n => if c.isDigit then some (n * 10 + (c.toNat - 48)) else none)
      (some 0)

/-- Modelled from the spec: a decimal integer, optionally signed. -/
def chars_as_int : List Char → Option Int
  | '-' :: rest => (digits_as_nat rest).map (fun n => -(n : Int))
  | '+' :: rest => (digits_as_nat rest).map (fun n => (n : Int))
  | cs => (digits_as_nat cs).map (fun n => (n : Int))

/-- Modelled from the spec: `str_as_int` (from `shared.rs`, absent from the
snapshot) — string→int is decimal only, rejecting whitespace and any
non-decimal form. -/
def str_as_int (s : String) : ValResult EitherInt :=
  match chars_as_int s.toList with
  | some i => .ok (EitherInt.i64 i)
  | none => .error (ValError.new .intParsing)

/-- Modelled from the spec: `EitherInt::as_bool` (from `return_enums.rs`,
absent from the snapshot) — only the integers 0 and 1 view as booleans. -/
def EitherInt.as_bool : EitherInt → Option Bool
  | .i64 i => if i = 0 then some false else if i = 1 then some true else none
  | .u64 u => if u = 0 then some false else if u = 1 then some true else none
  | .bigInt b => if b = 0 then some false else if b = 1 then some true else none

/-! ## `Input` implementation for the JSON tree (`input/input_json.rs`) -/

namespace JsonValue

/-- The debug tag of a JSON value, standing in for Rust debug formatting
(used only in the unreachable branch of `as_loc_item`: JSON object keys are
always strings, so the source comments that branch cannot be called). -/
def debugTag : JsonValue → String
  | .null => "Null"
  | .bool _ => "Bool"
  | .int _ => "Int"
  | .uint _ => "Uint"
  | .bigint _ => "BigInt"
  | .float _ => "Float"
  | .str _ => "String"
  | .array _ => "Array"
  | .obj _ => "Object"

/-- `JsonInput::as_loc_item` (line 26): ints and strings keep their value,
anything else renders through its debug form. -/
def as_loc_item : JsonValue → LocItem
  | .int i => .index i
  | .str s => .key s
  | v => .key v.debugTag

/-- `JsonInput::exact_str` (line 86): only a JSON string matches. -/
def exact_str : JsonValue → ValResult String
  | .str s => .ok s
  | _ => .error (ValError.new .stringType)

/-- `JsonInput::validate_str` (line 96): the strict flag is ignored and the
match is tagged strict (JSON strings can also represent other datatypes, so
string is a converting input). -/
def validate_str (v : JsonValue) (_strict : Bool) : ValResult (ValidationMatch String) :=
  (v.exact_str).map ValidationMatch.strict

/-- `JsonInput::validate_bytes` (line 103): a JSON string viewed as its
UTF-8 bytes; the strict flag is ignored. -/
def validate_bytes (v : JsonValue) (_strict : Bool) : ValResult (List UInt8) :=
  match v with
  | .str s => .ok s.toUTF8.toList
  | _ => .error (ValError.new .bytesType)

/-- `JsonInput::validate_bool` (line 114). -/
def validate_bool (v : JsonValue) (strict : Bool) : ValResult (ValidationMatch Bool) :=
  match v with
  | .bool b => .ok (ValidationMatch.exact b)
  | .str s => if !strict then (str_as_bool s).map ValidationMatch.lax
              else .error (ValError.new .boolType)
  | .int i => if !strict then (int_as_bool i).map ValidationMatch.lax
              else .error (ValError.new .boolType)
  | .float f =>
      if !strict then
        match float_as_int f with
        | .ok i =>
            match (EitherInt.i64 i).as_bool with
            | some b => .ok (ValidationMatch.lax b)
            | none => .error (ValError.new .boolParsing)
        | .error _ => .error (ValError.new .boolType)
      else .error (ValError.new .boolType)
  | _ => .error (ValError.new .boolType)

/-- `JsonInput::validate_int` (line 130). -/
def validate_int (v : JsonValue) (strict : Bool) : ValResult (ValidationMatch EitherInt) :=
  match v with
  | .int i => .ok (ValidationMatch.exact (EitherInt.i64 i))
  | .uint u => .ok (ValidationMatch.exact (EitherInt.u64 u))
  | .bigint b => .ok (ValidationMatch.exact (EitherInt.bigInt b))
  | .bool b => if !strict then .ok (ValidationMatch.lax (EitherInt.i64 (if b then 1 else 0)))
               else .error (ValError.new .intType)
  | .float f => if !strict then (float_as_int f).map (fun i => ValidationMatch.lax (EitherInt.i64 i))
                else .error (ValError.new .intType)
  | .str s => if !strict then (str_as_int s).map ValidationMatch.lax
              else .error (ValError.new .intType)
  | _ => .error (ValError.new .intType)

/-- `JsonInput::validate_dict` (line 165): only a JSON object matches; the
strict flag is ignored. -/
def validate_dict (v : JsonValue) (_strict : Bool) : ValResult (List (String × JsonValue)) :=
  match v with
  | .obj entries => .ok entries
  | _ => .error (ValError.new .dictType)

/-- `JsonInput::validate_list` (line 176): only a JSON array matches; the
strict flag is ignored. -/
def validate_list (v : JsonValue) (_strict : Bool) : ValResult (List JsonValue) :=
  match v with
  | .array a => .ok a
  | _ => .error (ValError.new .listType)

/-- `JsonInput::validate_tuple` (line 187): an array has to be allowed; the
strict flag is ignored. -/
def validate_tuple (v : JsonValue) (_strict : Bool) : ValResult (List JsonValue) :=
  match v with
  | .array a => .ok a
  | _ => .error (ValError.new .tupleType)

/-- `JsonInput::validate_set` (line 199): an array is allowed since a set
cannot otherwise be created from JSON; the strict flag is ignored. -/
def validate_set (v : JsonValue) (_strict : Bool) : ValResult (List JsonValue) :=
  match v with
  | .array a => .ok a
  | _ => .error (ValError.new .setType)

/-- `JsonInput::validate_frozenset` (line 211): an array is allowed since a
frozenset cannot otherwise be created from JSON; the strict flag is ignored. -/
def validate_frozenset (v : JsonValue) (_strict : Bool) : ValResult (List JsonValue) :=
  match v with
  | .array a => .ok a
  | _ => .error (ValError.new .frozenSetType)

end JsonValue

/-! ## Validation state (`validators/validation_state.rs`) -/

/-- Modelled from the spec: `Extra` (defined in `validators/mod.rs`, absent
from the snapshot) carries the per-call strictness override of the
validation context; other host-interop fields are not modelled. -/
structure Extra where
  strict : Option Bool
deriving DecidableEq, Repr

/-- `ValidationState` (line 12): the per-call state. The `recursion_guard`
and `definitions` fields are host references that are threaded through
unchanged by every operation below, so they are not modelled. -/
structure ValidationState where
  exactness : Option Exactness
  extra : Extra
deriving DecidableEq, Repr

namespace ValidationState

/-- `ValidationState::new` (line 21): exactness starts unknown. -/
def new (extra : Extra) : ValidationState :=
  { exactness := none, extra }

/-- `ValidationState::strict_or` (line 72). -/
def strict_or (st : ValidationState) (default : Bool) : Bool :=
  st.extra.strict.getD default

/-- `ValidationState::set_exactness_unknown` (line 80). -/
def set_exactness_unknown (st : ValidationState) : ValidationState :=
  { st with exactness := none }

/-- `ValidationState::set_exactness_ceiling` (line 89): sets the exactness
to the lower of the current exactness and the given exactness. -/
def set_exactness_ceiling (st : ValidationState) (exactness : Exactness) : ValidationState :=
  match st.exactness with
  | none | some .lax => st
  | some .strict =>
      if exactness = .lax then { st with exactness := some .lax } else st
  | some .exact => { st with exactness := some exactness }

/-- `ValidationState::with_new_extra` (line 35): runs `f` on a nested state
seeded with the current exactness and the new extra; on return a known
nested exactness is propagated to the enclosing state through
`set_exactness_ceiling`, an unknown one resets it to unknown. -/
def with_new_extra {R : Type} (st : ValidationState) (extra : Extra)
    (f : ValidationState → ValidationState × R) : ValidationState × R :=
  let new_state : ValidationState := { exactness := st.exactness, extra }
  let fr := f new_state
  let st1 :=
    match fr.1.exactness with
    | some exactness => st.set_exactness_ceiling exactness
    | none => { st with exactness := none }
  (st1, fr.2)

end ValidationState

/-! ## Date values (shape of the external `speedate` types as the embedded
code observes them) -/

/-- `speedate::Date`. -/
structure Date where
  year : Nat
  month : Nat
  day : Nat
deriving DecidableEq, Repr

/-- `speedate::Date` ordering: lexicographic on (year, month, day), as
derived in the library; total, so `partial_cmp` always returns `Some`. -/
def Date.cmp (a b : Date) : Ordering :=
  (compare a.year b.year).then ((compare a.month b.month).then (compare a.day b.day))

/-- `speedate::Time` as used by `date_from_datetime`. -/
structure Time where
  hour : Nat
  minute : Nat
  second : Nat
  microsecond : Nat
  tz_offset : Option Int
deriving DecidableEq, Repr

/-- `speedate::DateTime` as used by `date_from_datetime`. -/
structure DateTime where
  date : Date
  time : Time
deriving DecidableEq, Repr

/-- `speedate::MicrosecondsPrecisionOverflowBehavior`. -/
inductive MicrosecondsPrecisionOverflowBehavior where
  | truncate
  | error
deriving DecidableEq, Repr

/-! ## Date validator (`validators/date.rs`) -/

/-- The date capabilities of an input value, i.e. the two `Input` methods
`DateValidator::validate` consults. The parsing bodies behind them
(`input/datetime.rs`) are not part of the snapshot, so the validator is
embedded generically over them. -/
structure DateInput where
  validate_date : Bool → ValResult Date
  validate_datetime : Bool → MicrosecondsPrecisionOverflowBehavior → ValResult DateTime

/-- Modelled from the spec: `NowOp` (from `validators/datetime.rs`, absent
from the snapshot) — the "must be in the past/future relative to today"
constraint direction. -/
inductive NowOp where
  | past
  | future
deriving DecidableEq, Repr

/-- Modelled from the spec: `NowOp::compare` — past accepts a value
strictly before today, future strictly after. -/
def NowOp.cmpOk : NowOp → Ordering → Bool
  | .past, .lt => true
  | .future, .gt => true
  | _, _ => false

/-- `NowConstraint` as used by `DateConstraints` (only its direction is
observed here; the UTC offset is folded into the `today` argument of
`DateValidator.validate`). -/
structure NowConstraint where
  op : NowOp
deriving DecidableEq, Repr

/-- `DateConstraints` (date.rs line 147). -/
structure DateConstraints where
  today : Option NowConstraint
deriving DecidableEq, Repr

/-- `DateValidator` (date.rs line 16). -/
structure DateValidator where
  strict : Bool
  constraints : Option DateConstraints

/-- `convert the datetime parsing line errors` loop inside
`date_from_datetime` (date.rs lines 114-125): every `DatetimeParsing` error
is rewritten to `DateFromDatetimeParsing`; the first error of any other
kind makes the whole conversion fall back to the original date error. -/
def convert_dt_line_errors : List ValLineError → Option (List ValLineError)
  | [] => some []
  | e :: rest =>
      match e.errorType with
      | .datetimeParsing msg =>
          (convert_dt_line_errors rest).map
            (fun r => { e with errorType := .dateFromDatetimeParsing msg } :: r)
      | _ => none

/-- `date_from_datetime` (date.rs line 103): in lax mode, a non-date input
is parsed as a (lax, truncating) datetime and accepted exactly when its
time-of-day is zero, keeping the datetime's timezone offset out of the
comparison; a non-zero time is the `DateFromDatetimeInexact` error. -/
def date_from_datetime (input : DateInput) (date_err : ValError) : ValResult Date :=
  match input.validate_datetime false .truncate with
  | .error dt_err =>
      match dt_err with
      | .lineErrors line_errors =>
          match convert_dt_line_errors line_errors with
          | some converted => .error (.lineErrors converted)
          | none => .error date_err
      | other => .error other
  | .ok dt =>
      let zero_time : Time :=
        { hour := 0, minute := 0, second := 0, microsecond := 0, tz_offset := dt.time.tz_offset }
      if dt.time = zero_time then .ok dt.date
      else .error (ValError.new .dateFromDatetimeInexact)

/-- `DateValidator::validate` (date.rs line 40). `today` stands for the
host call `Date::today(offset)` evaluated with the constraint's UTC
offset. An internal date error returns immediately; otherwise the schema's
own strict flag decides whether the datetime fallback is attempted. -/
def DateValidator.validate (self : DateValidator) (extra : Extra) (today : Date)
    (input : DateInput) : ValResult Date := do
  let date ←
    match input.validate_date (extra.strict.getD self.strict) with
    | .ok date => pure date
    | .error (.internalErr msg) => .error (ValError.internalErr msg)
    | .error date_err =>
        match self.strict with
        | true => .error date_err
        | false => date_from_datetime input date_err
  match self.constraints with
  | some constraints =>
      match constraints.today with
      | some today_constraint =>
          let c := Date.cmp date today
          if today_constraint.op.cmpOk c then .ok date
          else
            .error (ValError.new
              (match today_constraint.op with
               | .past => .datePast
               | .future => .dateFuture))
      | none => .ok date
  | none => .ok date

/-! ## Dict validator (`validators/dict.rs`)

`validate_generic_mapping` is generic over the four concrete mapping
shapes; here it is embedded generically over the key input type `κ`, the
value input type `ν` and the validated output type `ω`, with the key and
value sub-validators as functions (mirroring
`key_validator.validate(py, key, state)` calls). -/

section DictValidatorSection

variable {κ ν ω : Type}

/-- `PyDict::set_item`: insert-or-overwrite; an existing key keeps its
position, a new key is appended (Python dict semantics). -/
def setItem [DecidableEq ω] : List (ω × ω) → ω → ω → List (ω × ω)
  | [], k, v => [(k, v)]
  | (k0, v0) :: rest, k, v =>
      if k0 = k then (k, v) :: rest else (k0, v0) :: setItem rest k v

/-- The `for item_result in mapping_iter` loop of
`DictValidator::validate_generic_mapping` (dict.rs lines 183-217), with the
output dict and collected errors as explicit accumulators. A failed
iterator item aborts via `?`; key errors are pushed with the `[key]`
pseudo-segment then the key's segment prepended, value errors with the
key's segment; `Omit` skips the item; an internal error is returned
immediately. -/
def validate_mapping_items [DecidableEq ω] (as_loc_item : κ → LocItem)
    (key_validator : κ → ValResult ω) (value_validator : ν → ValResult ω) :
    List (ValResult (κ × ν)) → List (ω × ω) → List ValLineError →
    ValResult (List (ω × ω) × List ValLineError)
  | [], output, errors => .ok (output, errors)
  | item_result :: rest, output, errors =>
    match item_result with
    | .error e => .error e
    | .ok (key, value) =>
      match key_validator key with
      | .error (.internalErr msg) => .error (.internalErr msg)
      | .error .omit =>
          validate_mapping_items as_loc_item key_validator value_validator rest output errors
      | .error (.lineErrors line_errors) =>
          let errors1 := errors ++ line_errors.map (fun err =>
            (err.with_outer_location (.key "[key]")).with_outer_location (as_loc_item key))
          match value_validator value with
          | .error (.internalErr msg) => .error (.internalErr msg)
          | .error .omit =>
              validate_mapping_items as_loc_item key_validator value_validator rest output errors1
          | .error (.lineErrors les2) =>
              validate_mapping_items as_loc_item key_validator value_validator rest output
                (errors1 ++ les2.map (fun err => err.with_outer_location (as_loc_item key)))
          | .ok _ =>
              validate_mapping_items as_loc_item key_validator value_validator rest output errors1
      | .ok output_key =>
          match value_validator value with
          | .error (.internalErr msg) => .error (.internalErr msg)
          | .error .omit =>
              validate_mapping_items as_loc_item key_validator value_validator rest output errors
          | .error (.lineErrors les2) =>
              validate_mapping_items as_loc_item key_validator value_validator rest output
                (errors ++ les2.map (fun err => err.with_outer_location (as_loc_item key)))
          | .ok output_value =>
              validate_mapping_items as_loc_item key_validator value_validator rest
                (setItem output output_key output_value) errors

/-- Modelled from the spec: the `length_check!` macro (defined in the full
repository's `list.rs`, absent from the snapshot) — after full iteration
the output length is checked against the min/max bounds, yielding a
too-short or too-long value-constraint error. -/
def length_check (len : Nat) (min_length max_length : Option Nat) : Option ErrorType :=
  if (min_length.map (fun m => decide (len < m))).getD false then some .tooShort
  else if (max_length.map (fun m => decide (m < len))).getD false then some .tooLong
  else none

/-- `DictValidator::validate_generic_mapping` (dict.rs line 171): iterate
all items collecting errors; if no error was collected, length-check the
output and return it, otherwise return the collected line errors. -/
def validate_generic_mapping [DecidableEq ω] (as_loc_item : κ → LocItem)
    (key_validator : κ → ValResult ω) (value_validator : ν → ValResult ω)
    (mapping_iter : List (ValResult (κ × ν)))
    (min_length max_length : Option Nat) : ValResult (List (ω × ω)) := do
  let r ← validate_mapping_items as_loc_item key_validator value_validator mapping_iter [] []
  let output := r.1
  let errors := r.2
  if errors.isEmpty then
    match length_check output.length min_length max_length with
    | some et => .error (ValError.new et)
    | none => .ok output
  else
    .error (.lineErrors errors)

/-- `DictValidator::validate` (dict.rs line 71) instantiated at the JSON
mapping shape: `input.validate_dict(state.strict_or(self.strict))` selects
the JSON object, whose iterator yields every entry as an `Ok` pair of the
key `String` (an `Input` itself) and the value. -/
def DictValidator.validate_json [DecidableEq ω]
    (key_validator : String → ValResult ω) (value_validator : JsonValue → ValResult ω)
    (min_length max_length : Option Nat) (self_strict : Bool)
    (state : ValidationState) (input : JsonValue) : ValResult (List (ω × ω)) := do
  let entries ← input.validate_dict (state.strict_or self_strict)
  validate_generic_mapping (fun s => .key s) key_validator value_validator
    (entries.map .ok) min_length max_length

end DictValidatorSection

/-! ## List validator (`validators/list.rs`, older API) -/

section ListValidatorSection

variable {ι : Type}

/-- Modelled from the spec: `GenericSequence::validate_to_vec` (from the
older `return_enums.rs`, absent from the snapshot) — every item is
attempted; a failing item's line errors are recorded with the item's index
prepended and iteration continues; `Omit` skips the item; an internal
error aborts immediately; with no error the validated items are returned. -/
def validate_to_vec_loop (validator : ι → ValResult ι) :
    List ι → Nat → List ι → List ValLineError → ValResult (List ι × List ValLineError)
  | [], _, output, errors => .ok (output, errors)
  | x :: rest, index, output, errors =>
    match validator x with
    | .ok v => validate_to_vec_loop validator rest (index + 1) (output ++ [v]) errors
    | .error (.lineErrors les) =>
        validate_to_vec_loop validator rest (index + 1) output
          (errors ++ les.map (fun e => e.with_outer_location (.index index)))
    | .error .omit => validate_to_vec_loop validator rest (index + 1) output errors
    | .error (.internalErr msg) => .error (.internalErr msg)

/-- Modelled from the spec: see `validate_to_vec_loop`. -/
def validate_to_vec (validator : ι → ValResult ι) (list : List ι) : ValResult (List ι) := do
  let r ← validate_to_vec_loop validator list 0 [] []
  if r.2.isEmpty then .ok r.1 else .error (.lineErrors r.2)

/-- `ListValidator::_validation_logic` (list.rs lines 73-111): the length
bounds are checked BEFORE any item is validated — a violated bound
immediately returns a single `ListTooShort`/`ListTooLong` error — and only
then are the items validated (or, with no item validator, copied through). -/
def ListValidator.validation_logic (item_validator : Option (ι → ValResult ι))
    (min_items max_items : Option Nat) (list : List ι) : ValResult (List ι) :=
  let length := list.length
  if (min_items.map (fun m => decide (length < m))).getD false then
    .error (ValError.new .listTooShort)
  else if (max_items.map (fun m => decide (m < length))).getD false then
    .error (ValError.new .listTooLong)
  else
    match item_validator with
    | some validator => validate_to_vec validator list
    | none => .ok list

end ListValidatorSection

/-! ## Specification-side bookkeeping for the dict loop

These definitions restate, item by item, what one iteration of
`validate_mapping_items` contributes; the lemmas below prove the loop
equal to their accumulation. -/

section DictSpecSection

variable {κ ν ω : Type}

/-- The line errors the loop pushes for one key validation: a failing
key's errors get the `[key]` pseudo-segment and then the key's own
segment prepended. -/
def key_errors (as_loc_item : κ → LocItem) (key_validator : κ → ValResult ω)
    (k : κ) : List ValLineError :=
  match key_validator k with
  | .error (.lineErrors les) =>
      les.map (fun err =>
        (err.with_outer_location (.key "[key]")).with_outer_location (as_loc_item k))
  | _ => []

/-- The line errors the loop pushes for one value validation: a failing
value's errors get the key's segment prepended. -/
def value_errors (as_loc_item : κ → LocItem) (value_validator : ν → ValResult ω)
    (k : κ) (v : ν) : List ValLineError :=
  match value_validator v with
  | .error (.lineErrors les) =>
      les.map (fun err => err.with_outer_location (as_loc_item k))
  | _ => []

/-- All line errors one item contributes: none when the key validator
omits the item (its value is never validated), otherwise the key errors
followed by the value errors. -/
def item_errors (as_loc_item : κ → LocItem) (key_validator : κ → ValResult ω)
    (value_validator : ν → ValResult ω) (p : κ × ν) : List ValLineError :=
  match key_validator p.1 with
  | .error .omit => []
  | _ => key_errors as_loc_item key_validator p.1
      ++ value_errors as_loc_item value_validator p.1 p.2

/-- The output-dict effect of one item: inserted only when both key and
value validate. -/
def item_output [DecidableEq ω] (key_validator : κ → ValResult ω)
    (value_validator : ν → ValResult ω) (output : List (ω × ω)) (p : κ × ν) :
    List (ω × ω) :=
  match key_validator p.1, value_validator p.2 with
  | .ok k, .ok v => setItem output k v
  | _, _ => output

/-- An item on which neither sub-validator reports a fatal internal
error. -/
def item_clean (key_validator : κ → ValResult ω) (value_validator : ν → ValResult ω)
    (p : κ × ν) : Prop :=
  (∀ msg, key_validator p.1 ≠ .error (.internalErr msg)) ∧
    (∀ msg, value_validator p.2 ≠ .error (.internalErr msg))

/-- A leaf-validator result: success, or exactly one line error located at
the failing value itself (empty inner path). -/
def leaf_result {α : Type} (r : ValResult α) : Prop :=
  (∃ x, r = .ok x) ∨ (∃ et, r = .error (.lineErrors [⟨et, []⟩]))

end DictSpecSection

/-! ## Lemmas about the dict loop -/

section DictLoopLemmas

variable {κ ν ω : Type} [DecidableEq ω]
variable (as_loc_item : κ → LocItem) (keyV : κ → ValResult ω) (valV : ν → ValResult ω)

/-- One clean `Ok` item steps the dict loop by its item-output and
item-errors contribution. -/
theorem validate_mapping_items_cons_clean (p : κ × ν) (rest : List (ValResult (κ × ν)))
    (output : List (ω × ω)) (errors : List ValLineError)
    (hp : item_clean keyV valV p) :
    validate_mapping_items as_loc_item keyV valV (.ok p :: rest) output errors
      = validate_mapping_items as_loc_item keyV valV rest
          (item_output keyV valV output p)
          (errors ++ item_errors as_loc_item keyV valV p) := by
  obtain ⟨k, v⟩ := p
  obtain ⟨hk, hv⟩ := hp
  rcases hkk : keyV k with e | okk
  · rcases e with les | _ | msg
    · rcases hvv : valV v with e2 | okv
      · rcases e2 with les2 | _ | msg2
        · simp [validate_mapping_items, hkk, hvv, item_output, item_errors, key_errors,
            value_errors, List.append_assoc]
        · simp [validate_mapping_items, hkk, hvv, item_output, item_errors, key_errors,
            value_errors]
        · exact absurd hvv (hv msg2)
      · simp [validate_mapping_items, hkk, hvv, item_output, item_errors, key_errors,
          value_errors]
    · simp [validate_mapping_items, hkk, item_output, item_errors, key_errors, value_errors]
    · exact absurd hkk (hk msg)
  · rcases hvv : valV v with e2 | okv
    · rcases e2 with les2 | _ | msg2
      · simp [validate_mapping_items, hkk, hvv, item_output, item_errors, key_errors,
          value_errors]
      · simp [validate_mapping_items, hkk, hvv, item_output, item_errors, key_errors,
          value_errors]
      · exact absurd hvv (hv msg2)
    · simp [validate_mapping_items, hkk, hvv, item_output, item_errors, key_errors,
        value_errors]

/-- The dict loop over clean items succeeds, folding the item outputs and
appending every item's errors in order. -/
theorem validate_mapping_items_clean (items : List (κ × ν)) (output : List (ω × ω))
    (errors : List ValLineError) (h : ∀ p ∈ items, item_clean keyV valV p) :
    validate_mapping_items as_loc_item keyV valV (items.map .ok) output errors
      = .ok (items.foldl (item_output keyV valV) output,
          errors ++ items.flatMap (item_errors as_loc_item keyV valV)) := by
  induction items generalizing output errors with
  | nil => simp [validate_mapping_items]
  | cons p rest ih =>
      rw [List.map_cons,
        validate_mapping_items_cons_clean as_loc_item keyV valV p _ _ _
          (h p (List.mem_cons_self p rest)),
        ih _ _ (fun q hq => h q (List.mem_cons_of_mem p hq))]
      simp [List.flatMap_cons, List.append_assoc]

/-- `validate_generic_mapping` over clean items: the collected item errors
decide between full output (length-checked only then) and the complete
error list. -/
theorem validate_generic_mapping_clean (items : List (κ × ν))
    (min_length max_length : Option Nat) (h : ∀ p ∈ items, item_clean keyV valV p) :
    validate_generic_mapping as_loc_item keyV valV (items.map .ok) min_length max_length
      = (if (items.flatMap (item_errors as_loc_item keyV valV)).isEmpty then
          match length_check ((items.foldl (item_output keyV valV) []).length)
              min_length max_length with
          | some et => .error (ValError.new et)
          | none => .ok (items.foldl (item_output keyV valV) [])
        else .error (.lineErrors (items.flatMap (item_errors as_loc_item keyV valV)))) := by
  unfold validate_generic_mapping
  rw [validate_mapping_items_clean as_loc_item keyV valV items [] [] h]
  simp [Bind.bind, Except.bind]

/-- A key validator reporting an internal error aborts the dict loop with
that error, whatever is left to iterate. -/
theorem validate_mapping_items_internal_key (pre : List (κ × ν)) (k : κ) (v : ν)
    (post : List (ValResult (κ × ν))) (output : List (ω × ω)) (errors : List ValLineError)
    (msg : String) (hpre : ∀ p ∈ pre, item_clean keyV valV p)
    (hk : keyV k = .error (.internalErr msg)) :
    validate_mapping_items as_loc_item keyV valV (pre.map .ok ++ .ok (k, v) :: post)
        output errors
      = .error (.internalErr msg) := by
  induction pre generalizing output errors with
  | nil => simp [validate_mapping_items, hk]
  | cons q rest ih =>
      rw [List.map_cons, List.cons_append,
        validate_mapping_items_cons_clean as_loc_item keyV valV q _ _ _
          (hpre q (List.mem_cons_self q rest))]
      exact ih _ _ (fun q2 hq => hpre q2 (List.mem_cons_of_mem q hq))

/-- A value validator reporting an internal error (after a key result that
neither omits nor is itself internal) aborts the dict loop likewise. -/
theorem validate_mapping_items_internal_value (pre : List (κ × ν)) (k : κ) (v : ν)
    (post : List (ValResult (κ × ν))) (output : List (ω × ω)) (errors : List ValLineError)
    (msg : String) (hpre : ∀ p ∈ pre, item_clean keyV valV p)
    (hki : ∀ m, keyV k ≠ .error (.internalErr m)) (hko : keyV k ≠ .error .omit)
    (hv : valV v = .error (.internalErr msg)) :
    validate_mapping_items as_loc_item keyV valV (pre.map .ok ++ .ok (k, v) :: post)
        output errors
      = .error (.internalErr msg) := by
  induction pre generalizing output errors with
  | nil =>
      rcases hkk : keyV k with e | okk
      · rcases e with les | _ | m
        · simp [validate_mapping_items, hkk, hv]
        · exact absurd hkk hko
        · exact absurd hkk (hki m)
      · simp [validate_mapping_items, hkk, hv]
  | cons q rest ih =>
      rw [List.map_cons, List.cons_append,
        validate_mapping_items_cons_clean as_loc_item keyV valV q _ _ _
          (hpre q (List.mem_cons_self q rest))]
      exact ih _ _ (fun q2 hq => hpre q2 (List.mem_cons_of_mem q hq))

end DictLoopLemmas

/-- Per-item form of the collected errors under leaf sub-validators: one
error per failing validation, located at the key's segment plus `[key]`
for a key failure and at the key's segment for a value failure. -/
theorem item_errors_leaf_spec {κ ν ω : Type} (as_loc_item : κ → LocItem)
    (keyV : κ → ValResult ω) (valV : ν → ValResult ω) (p : κ × ν)
    (hk : leaf_result (keyV p.1)) (hv : leaf_result (valV p.2)) :
    (item_errors as_loc_item keyV valV p).length
        = ((if (keyV p.1).isOk then 0 else 1) + (if (valV p.2).isOk then 0 else 1)) ∧
    ((item_errors as_loc_item keyV valV p).map ValLineError.location).Nodup ∧
    (∀ l ∈ (item_errors as_loc_item keyV valV p).map ValLineError.location,
        l = [as_loc_item p.1, .key "[key]"] ∨ l = [as_loc_item p.1]) := by
  obtain ⟨k, v⟩ := p
  rcases hk with ⟨x, hx⟩ | ⟨et, hx⟩ <;> rcases hv with ⟨y, hy⟩ | ⟨et2, hy⟩ <;>
    simp [item_errors, key_errors, value_errors, hx, hy, ValLineError.with_outer_location,
      Except.isOk, Except.toBool]

/-- A flatten of per-element lists is duplicate-free when the elements
carry distinct tags and every produced entry carries its element's tag. -/
theorem nodup_flatMap_of_tag {α β γ : Type} (l : List α) (f : α → List β)
    (key : α → γ) (tag : β → γ) (hkeys : (l.map key).Nodup)
    (htag : ∀ a ∈ l, ∀ b ∈ f a, tag b = key a)
    (heach : ∀ a ∈ l, (f a).Nodup) : (l.flatMap f).Nodup := by
  rw [List.nodup_flatMap]
  refine ⟨heach, ?_⟩
  have hp : l.Pairwise (fun a b => key a ≠ key b) := by
    have h2 := hkeys
    rw [List.Nodup, List.pairwise_map] at h2
    exact h2
  refine List.Pairwise.imp_of_mem ?_ hp
  intro a b ha hb hne x hxa hxb
  exact hne (((htag a ha x hxa).symm).trans (htag b hb x hxb))

/-! ## Theorems for the claims -/

/-- C7: `set_exactness_ceiling` computes a minimum under Lax < Strict <
Exact — `Exactness.lower` realises that minimum on ranks, after
`set_exactness_ceiling e` the stored exactness is the lower of the previous
value and `e` (an unknown exactness stays unknown), and a nested scope run
via `with_new_extra` that finishes with a known exactness propagates it to
the enclosing state by the same ceiling operation. -/
theorem C7_exactness_ceiling_is_min :
    (∀ a b : Exactness, (a.lower b).rank = min a.rank b.rank) ∧
    (∀ (st : ValidationState) (e : Exactness),
        (st.set_exactness_ceiling e).exactness = st.exactness.map (fun c => c.lower e)) ∧
    (∀ (R : Type) (st : ValidationState) (extra : Extra)
        (f : ValidationState → ValidationState × R) (e : Exactness),
        (f { exactness := st.exactness, extra := extra }).1.exactness = some e →
        (st.with_new_extra extra f).1.exactness = st.exactness.map (fun c => c.lower e)) := by
  have hceil : ∀ (st : ValidationState) (e : Exactness),
      (st.set_exactness_ceiling e).exactness = st.exactness.map (fun c => c.lower e) := by
    intro st e
    rcases st with ⟨ex, extra⟩
    rcases ex with _ | c
    · rfl
    · cases c <;> cases e <;> rfl
  refine ⟨fun a b => by cases a <;> cases b <;> rfl, hceil, ?_⟩
  intro R st extra f e h
  unfold ValidationState.with_new_extra
  simp only [h]
  exact hceil st e

/-- C7 witness: the ceiling operations evaluated at concrete states — a
nested branch reaching `lax` inside a state whose exactness is `exact`
leaves the enclosing state at `lax`. -/
theorem C7_exactness_ceiling_is_min_witness :
    ((ValidationState.mk (some .exact) ⟨none⟩).with_new_extra ⟨some true⟩
        (fun s => ({ s with exactness := some .lax }, (0 : Nat)))).1.exactness
      = some Exactness.lax := by
  have h := C7_exactness_ceiling_is_min.2.2 Nat ⟨some .exact, ⟨none⟩⟩ ⟨some true⟩
      (fun s => ({ s with exactness := some .lax }, 0)) .lax rfl
  simpa using h

/-- C10: for every JSON value, validation as a string, bytes, dict, list,
tuple, set or frozenset ignores the strict flag entirely, accepting exactly
JSON strings (string/bytes), JSON objects (dict) and JSON arrays (the
sequence kinds) and rejecting everything else with the corresponding type
error. -/
theorem C10_json_structural_ignore_strict :
    ∀ (v : JsonValue) (s1 s2 : Bool),
      (v.validate_str s1 = v.validate_str s2 ∧
        v.validate_bytes s1 = v.validate_bytes s2 ∧
        v.validate_dict s1 = v.validate_dict s2 ∧
        v.validate_list s1 = v.validate_list s2 ∧
        v.validate_tuple s1 = v.validate_tuple s2 ∧
        v.validate_set s1 = v.validate_set s2 ∧
        v.validate_frozenset s1 = v.validate_frozenset s2) ∧
      ((∃ s, v = .str s ∧ v.validate_str s1 = .ok (ValidationMatch.strict s) ∧
          v.validate_bytes s1 = .ok s.toUTF8.toList) ∨
        ((∀ s, v ≠ .str s) ∧ v.validate_str s1 = .error (ValError.new .stringType) ∧
          v.validate_bytes s1 = .error (ValError.new .bytesType))) ∧
      ((∃ entries, v = .obj entries ∧ v.validate_dict s1 = .ok entries) ∨
        ((∀ entries, v ≠ .obj entries) ∧
          v.validate_dict s1 = .error (ValError.new .dictType))) ∧
      ((∃ items, v = .array items ∧ v.validate_list s1 = .ok items ∧
          v.validate_tuple s1 = .ok items ∧ v.validate_set s1 = .ok items ∧
          v.validate_frozenset s1 = .ok items) ∨
        ((∀ items, v ≠ .array items) ∧
          v.validate_list s1 = .error (ValError.new .listType) ∧
          v.validate_tuple s1 = .error (ValError.new .tupleType) ∧
          v.validate_set s1 = .error (ValError.new .setType) ∧
          v.validate_frozenset s1 = .error (ValError.new .frozenSetType))) := by
  intro v s1 s2
  cases v <;>
    simp [JsonValue.validate_str, JsonValue.exact_str, JsonValue.validate_bytes,
      JsonValue.validate_dict, JsonValue.validate_list, JsonValue.validate_tuple,
      JsonValue.validate_set, JsonValue.validate_frozenset, Except.map]

/-- C4: against the int target, strict JSON validation accepts exactly the
exact-tier values (Int, Uint, BigInt), tagged exact, and rejects every
other value with the int type error; lax validation additionally accepts
bools, integral finite floats and decimal integer strings, tagged lax. -/
theorem C4_json_int_tiers :
    (∀ (i : Int) (s : Bool),
        (JsonValue.int i).validate_int s = .ok (ValidationMatch.exact (.i64 i))) ∧
    (∀ (u : Nat) (s : Bool),
        (JsonValue.uint u).validate_int s = .ok (ValidationMatch.exact (.u64 u))) ∧
    (∀ (b : Int) (s : Bool),
        (JsonValue.bigint b).validate_int s = .ok (ValidationMatch.exact (.bigInt b))) ∧
    (∀ v : JsonValue, (∀ i, v ≠ .int i) → (∀ u, v ≠ .uint u) → (∀ b, v ≠ .bigint b) →
        v.validate_int true = .error (ValError.new .intType)) ∧
    (∀ b : Bool, (JsonValue.bool b).validate_int false
        = .ok (ValidationMatch.lax (.i64 (if b then 1 else 0)))) ∧
    (∀ f : JFloat, f.finite = true → f.isInt = true →
        (JsonValue.float f).validate_int false = .ok (ValidationMatch.lax (.i64 f.intVal))) ∧
    (∀ (s : String) (i : Int), chars_as_int s.toList = some i →
        (JsonValue.str s).validate_int false = .ok (ValidationMatch.lax (.i64 i))) := by
  refine ⟨fun i s => rfl, fun u s => rfl, fun b s => rfl, ?_, fun b => rfl, ?_, ?_⟩
  · intro v hi hu hb
    cases v with
    | int i => exact absurd rfl (hi i)
    | uint u => exact absurd rfl (hu u)
    | bigint b => exact absurd rfl (hb b)
    | null => rfl
    | bool b => rfl
    | float f => rfl
    | str s => rfl
    | array items => rfl
    | obj entries => rfl
  · intro f hfin hint
    simp [JsonValue.validate_int, float_as_int, hfin, hint, Except.map]
  · intro s i h
    simp only [JsonValue.validate_int, str_as_int, Except.map]
    rw [h]
    rfl

/-- C4 witness: the tiers at concrete inputs — the integral float 7.0 and
the string "123" are accepted lax, and the string "123" is rejected strict
with the int type error. -/
theorem C4_json_int_tiers_witness :
    (JsonValue.float ⟨true, true, 7⟩).validate_int false
        = .ok (ValidationMatch.lax (.i64 7)) ∧
    (JsonValue.str "123").validate_int false = .ok (ValidationMatch.lax (.i64 123)) ∧
    (JsonValue.str "123").validate_int true = .error (ValError.new .intType) := by
  refine ⟨C4_json_int_tiers.2.2.2.2.2.1 ⟨true, true, 7⟩ rfl rfl,
    C4_json_int_tiers.2.2.2.2.2.2 "123" 123 (by rfl),
    C4_json_int_tiers.2.2.2.1 (.str "123") (fun i h => nomatch h) (fun u h => nomatch h)
      (fun b h => nomatch h)⟩

/-- C9 counterexample: the integral JSON float 2.0 in lax bool validation
yields the `BoolParsing` value/parsing error, not the `BoolType` type error
the claim requires. -/
theorem C9_counterexample_float_two :
    (JsonValue.float ⟨true, true, 2⟩).validate_bool false
        = .error (ValError.new .boolParsing) ∧
    ValError.new .boolParsing ≠ ValError.new .boolType :=
  ⟨rfl, by decide⟩

/-- C9 (amended): lax numeric→bool accepts exactly the numeric values 0
and 1; in strict mode no numeric value is accepted. For the other numeric
inputs the error kind depends on the shape: integers other than 0/1 and
non-integral or non-finite floats give the bool type error, while an
integral float other than 0.0/1.0 gives the `BoolParsing` parsing error. -/
theorem C9_numeric_bool_amended :
    (∀ i : Int, (JsonValue.int i).validate_bool true = .error (ValError.new .boolType)) ∧
    (∀ f : JFloat, (JsonValue.float f).validate_bool true = .error (ValError.new .boolType)) ∧
    (∀ (u : Nat) (s : Bool),
        (JsonValue.uint u).validate_bool s = .error (ValError.new .boolType)) ∧
    (∀ (b : Int) (s : Bool),
        (JsonValue.bigint b).validate_bool s = .error (ValError.new .boolType)) ∧
    ((JsonValue.int 0).validate_bool false = .ok (ValidationMatch.lax false)) ∧
    ((JsonValue.int 1).validate_bool false = .ok (ValidationMatch.lax true)) ∧
    (∀ i : Int, i ≠ 0 → i ≠ 1 →
        (JsonValue.int i).validate_bool false = .error (ValError.new .boolType)) ∧
    (∀ f : JFloat, f.finite = true → f.isInt = true → f.intVal = 0 →
        (JsonValue.float f).validate_bool false = .ok (ValidationMatch.lax false)) ∧
    (∀ f : JFloat, f.finite = true → f.isInt = true → f.intVal = 1 →
        (JsonValue.float f).validate_bool false = .ok (ValidationMatch.lax true)) ∧
    (∀ f : JFloat, f.finite = false →
        (JsonValue.float f).validate_bool false = .error (ValError.new .boolType)) ∧
    (∀ f : JFloat, f.finite = true → f.isInt = false →
        (JsonValue.float f).validate_bool false = .error (ValError.new .boolType)) ∧
    (∀ f : JFloat, f.finite = true → f.isInt = true → f.intVal ≠ 0 → f.intVal ≠ 1 →
        (JsonValue.float f).validate_bool false = .error (ValError.new .boolParsing)) := by
  refine ⟨fun i => rfl, fun f => rfl, fun u s => rfl, fun b s => rfl, rfl, rfl,
    ?_, ?_, ?_, ?_, ?_, ?_⟩
  · intro i h0 h1
    simp [JsonValue.validate_bool, int_as_bool, h0, h1, Except.map]
  · intro f hfin hint h0
    simp [JsonValue.validate_bool, float_as_int, EitherInt.as_bool, hfin, hint, h0]
  · intro f hfin hint h1
    simp [JsonValue.validate_bool, float_as_int, EitherInt.as_bool, hfin, hint, h1]
  · intro f hfin
    simp [JsonValue.validate_bool, float_as_int, hfin]
  · intro f hfin hint
    simp [JsonValue.validate_bool, float_as_int, hfin, hint]
  · intro f hfin hint h0 h1
    simp [JsonValue.validate_bool, float_as_int, EitherInt.as_bool, hfin, hint, h0, h1]

/-- C5: in lax date validation, an input that is not a date (its date
extraction fails recoverably) but parses as a lax datetime yields the
datetime's date component when the time-of-day is exactly midnight, and
the distinct `DateFromDatetimeInexact` error — not a generic type error —
otherwise. -/
theorem C5_lax_date_from_midnight_datetime :
    ∀ (input : DateInput) (today : Date) (errs : List ValLineError) (dt : DateTime),
      input.validate_date false = .error (.lineErrors errs) →
      input.validate_datetime false .truncate = .ok dt →
      ((dt.time.hour = 0 ∧ dt.time.minute = 0 ∧ dt.time.second = 0 ∧
          dt.time.microsecond = 0) →
        DateValidator.validate ⟨false, none⟩ ⟨none⟩ today input = .ok dt.date) ∧
      (¬(dt.time.hour = 0 ∧ dt.time.minute = 0 ∧ dt.time.second = 0 ∧
          dt.time.microsecond = 0) →
        DateValidator.validate ⟨false, none⟩ ⟨none⟩ today input
          = .error (ValError.new .dateFromDatetimeInexact)) := by
  intro input today errs dt hd hdt
  obtain ⟨ddate, th, tm, ts, tus, ttz⟩ := dt
  constructor
  · rintro ⟨h1, h2, h3, h4⟩
    subst h1; subst h2; subst h3; subst h4
    simp [DateValidator.validate, hd, date_from_datetime, hdt, Bind.bind, Except.bind]
  · intro hnz
    have hne : Time.mk th tm ts tus ttz
        ≠ { hour := 0, minute := 0, second := 0, microsecond := 0, tz_offset := ttz } := by
      intro he
      rw [Time.mk.injEq] at he
      exact hnz ⟨he.1, he.2.1, he.2.2.1, he.2.2.2.1⟩
    simp [DateValidator.validate, hd, date_from_datetime, hdt, hne, Bind.bind, Except.bind]

/-- C5 witness: a concrete input behaving like the JSON string
"2023-01-01T00:00:00" (no date, midnight datetime) validates to the date
2023-01-01 in lax mode. -/
theorem C5_lax_date_from_midnight_datetime_witness :
    DateValidator.validate ⟨false, none⟩ ⟨none⟩ ⟨2024, 1, 1⟩
      ⟨fun _ => .error (ValError.new (.dateParsing "invalid date")),
        fun _ _ => .ok ⟨⟨2023, 1, 1⟩, ⟨0, 0, 0, 0, none⟩⟩⟩
      = .ok ⟨2023, 1, 1⟩ :=
  (C5_lax_date_from_midnight_datetime
      ⟨fun _ => .error (ValError.new (.dateParsing "invalid date")),
        fun _ _ => .ok ⟨⟨2023, 1, 1⟩, ⟨0, 0, 0, 0, none⟩⟩⟩
      ⟨2024, 1, 1⟩ [⟨.dateParsing "invalid date", []⟩] ⟨⟨2023, 1, 1⟩, ⟨0, 0, 0, 0, none⟩⟩
      rfl rfl).1 ⟨rfl, rfl, rfl, rfl⟩

/-- C6 counterexample: with schema strict=false but the per-call override
strict=true — effectively strict validation — a midnight-datetime input
whose date extraction fails is still accepted through the datetime
fallback, instead of being rejected with the date error. -/
theorem C6_counterexample_override_strict :
    DateValidator.validate ⟨false, none⟩ ⟨some true⟩ ⟨2024, 1, 1⟩
      ⟨fun _ => .error (ValError.new (.dateParsing "invalid date")),
        fun _ _ => .ok ⟨⟨2023, 1, 1⟩, ⟨0, 0, 0, 0, none⟩⟩⟩
      = .ok ⟨2023, 1, 1⟩ := by
  rfl

/-- C6 (amended): the datetime-at-midnight fallback is governed by the
schema's own strict flag alone, not by the effective strictness: with
schema strict=true a recoverably failing date extraction is returned
as-is, and with schema strict=false the fallback is attempted regardless
of the per-call strictness override. -/
theorem C6_fallback_uses_schema_flag :
    (∀ (input : DateInput) (extra : Extra) (today : Date) (err : ValError),
      input.validate_date (extra.strict.getD true) = .error err →
      (∀ msg, err ≠ .internalErr msg) →
      DateValidator.validate ⟨true, none⟩ extra today input = .error err) ∧
    (∀ (input : DateInput) (extra : Extra) (today : Date) (err : ValError),
      input.validate_date (extra.strict.getD false) = .error err →
      (∀ msg, err ≠ .internalErr msg) →
      DateValidator.validate ⟨false, none⟩ extra today input
        = date_from_datetime input err) := by
  constructor
  · intro input extra today err hd hni
    rcases err with les | _ | msg
    · simp [DateValidator.validate, hd, Bind.bind, Except.bind]
    · simp [DateValidator.validate, hd, Bind.bind, Except.bind]
    · exact absurd rfl (hni msg)
  · intro input extra today err hd hni
    rcases err with les | _ | msg
    · rcases hfb : date_from_datetime input (.lineErrors les) with e | d <;>
        simp [DateValidator.validate, hd, hfb, Bind.bind, Except.bind]
    · rcases hfb : date_from_datetime input .omit with e | d <;>
        simp [DateValidator.validate, hd, hfb, Bind.bind, Except.bind]
    · exact absurd rfl (hni msg)

/-- C6 witness: the amended rule applied concretely — with schema
strict=true and override lax, a failing date extraction is returned even
though a midnight datetime would be available. -/
theorem C6_fallback_uses_schema_flag_witness :
    DateValidator.validate ⟨true, none⟩ ⟨some false⟩ ⟨2024, 1, 1⟩
      ⟨fun _ => .error (ValError.new (.dateParsing "invalid date")),
        fun _ _ => .ok ⟨⟨2023, 1, 1⟩, ⟨0, 0, 0, 0, none⟩⟩⟩
      = .error (ValError.new (.dateParsing "invalid date")) :=
  C6_fallback_uses_schema_flag.1
    ⟨fun _ => .error (ValError.new (.dateParsing "invalid date")),
      fun _ _ => .ok ⟨⟨2023, 1, 1⟩, ⟨0, 0, 0, 0, none⟩⟩⟩
    ⟨some false⟩ ⟨2024, 1, 1⟩ (ValError.new (.dateParsing "invalid date"))
    rfl (fun _ h => nomatch h)

/-- C1 counterexample: one mapping item (N = 1, K = 1 failing item) whose
key and value both fail leaf validation produces two line errors, not
exactly K = 1. -/
theorem C1_counterexample_item_failing_both :
    DictValidator.validate_json (ω := Int)
        (fun _ => .error (ValError.new .intType)) (fun _ => .error (ValError.new .intType))
        none none false (ValidationState.new ⟨none⟩) (.obj [("a", .null)])
      = .error (.lineErrors
          [⟨.intType, [.key "a", .key "[key]"]⟩, ⟨.intType, [.key "a"]⟩]) ∧
    ([⟨ErrorType.intType, [LocItem.key "a", .key "[key]"]⟩,
        ⟨ErrorType.intType, [LocItem.key "a"]⟩] : List ValLineError).length ≠ 1 := by
  exact ⟨rfl, by decide⟩

/-- C1 (amended): over any mapping input with leaf key/value sub-validators
(success or exactly one line error at the failing value) and pairwise
distinct key segments, validation continues past every failing item and
collects exactly one line error per failing validation — so an item whose
key and value both fail contributes two — each with a distinct correct
location path (the key's segment plus `[key]` for key failures, the key's
segment for value failures), and the call returns either the fully built
output dict (length-checked only then) or exactly the complete error list,
never a partial output together with errors. -/
theorem C1_dict_error_collection_amended {κ ν ω : Type} [DecidableEq ω]
    (as_loc_item : κ → LocItem) (keyV : κ → ValResult ω) (valV : ν → ValResult ω)
    (items : List (κ × ν)) (min_length max_length : Option Nat)
    (hkey : ∀ p ∈ items, leaf_result (keyV p.1))
    (hval : ∀ p ∈ items, leaf_result (valV p.2))
    (hdistinct : (items.map (fun p => as_loc_item p.1)).Nodup) :
    validate_generic_mapping as_loc_item keyV valV (items.map .ok) min_length max_length
      = (if (items.flatMap (item_errors as_loc_item keyV valV)).isEmpty then
          match length_check ((items.foldl (item_output keyV valV) []).length)
              min_length max_length with
          | some et => .error (ValError.new et)
          | none => .ok (items.foldl (item_output keyV valV) [])
        else .error (.lineErrors (items.flatMap (item_errors as_loc_item keyV valV)))) ∧
    (items.flatMap (item_errors as_loc_item keyV valV)).length
      = items.countP (fun p => !(keyV p.1).isOk)
          + items.countP (fun p => !(valV p.2).isOk) ∧
    ((items.flatMap (item_errors as_loc_item keyV valV)).map ValLineError.location).Nodup ∧
    (∀ e ∈ items.flatMap (item_errors as_loc_item keyV valV),
        (∃ p ∈ items, e.location = [as_loc_item p.1, .key "[key]"]) ∨
        (∃ p ∈ items, e.location = [as_loc_item p.1])) := by
  have hclean : ∀ p ∈ items, item_clean keyV valV p := by
    intro p hp
    refine ⟨?_, ?_⟩
    · intro msg hcontra
      rcases hkey p hp with ⟨x, hx⟩ | ⟨et, hx⟩ <;> rw [hx] at hcontra <;> exact nomatch hcontra
    · intro msg hcontra
      rcases hval p hp with ⟨x, hx⟩ | ⟨et, hx⟩ <;> rw [hx] at hcontra <;> exact nomatch hcontra
  refine ⟨validate_generic_mapping_clean as_loc_item keyV valV items min_length max_length
    hclean, ?_, ?_, ?_⟩
  · clear hclean hdistinct
    induction items with
    | nil => simp
    | cons p rest ih =>
        have hspec := (item_errors_leaf_spec as_loc_item keyV valV p
          (hkey p (List.mem_cons_self p rest)) (hval p (List.mem_cons_self p rest))).1
        rw [List.flatMap_cons, List.length_append, List.countP_cons, List.countP_cons,
          ih (fun q hq => hkey q (List.mem_cons_of_mem p hq))
            (fun q hq => hval q (List.mem_cons_of_mem p hq)), hspec]
        rcases hb1 : (keyV p.1).isOk <;> rcases hb2 : (valV p.2).isOk <;>
          simp [hb1, hb2] <;> omega
  · rw [List.map_flatMap]
    refine nodup_flatMap_of_tag items _ (fun p => some (as_loc_item p.1))
      (fun l => l.head?) ?_ ?_ ?_
    · have hmap : (items.map fun p => some (as_loc_item p.1))
          = (items.map fun p => as_loc_item p.1).map some := by
        rw [List.map_map]
        rfl
      rw [hmap]
      exact hdistinct.map (fun a b h => Option.some.inj h)
    · intro p hp b hb
      rcases (item_errors_leaf_spec as_loc_item keyV valV p (hkey p hp) (hval p hp)).2.2 b hb
        with h | h <;> rw [h] <;> rfl
    · intro p hp
      exact (item_errors_leaf_spec as_loc_item keyV valV p (hkey p hp) (hval p hp)).2.1
  · intro e he
    rw [List.mem_flatMap] at he
    obtain ⟨p, hp, hep⟩ := he
    rcases (item_errors_leaf_spec as_loc_item keyV valV p (hkey p hp) (hval p hp)).2.2
        e.location (List.mem_map_of_mem ValLineError.location hep) with h | h
    · exact Or.inl ⟨p, hp, h⟩
    · exact Or.inr ⟨p, hp, h⟩

/-- C1 witness: the amended statement applied to a concrete two-item JSON
object where the first value fails: one error at location ["a"], full
dichotomy as stated. -/
theorem C1_dict_error_collection_amended_witness :
    validate_generic_mapping (ω := Int) (fun s : String => LocItem.key s)
        (fun _ => .ok 0)
        (fun v : JsonValue => match v with | .null => .error (ValError.new .intType) | _ => .ok 1)
        ([(("a" : String), JsonValue.null), (("b" : String), JsonValue.bool true)].map .ok)
        none none
      = .error (.lineErrors [⟨.intType, [.key "a"]⟩]) := by
  have h := (C1_dict_error_collection_amended (ω := Int) (fun s : String => LocItem.key s)
      (fun _ => .ok 0)
      (fun v : JsonValue => match v with | .null => .error (ValError.new .intType) | _ => .ok 1)
      [(("a" : String), JsonValue.null), (("b" : String), JsonValue.bool true)] none none
      (fun p _ => Or.inl ⟨0, rfl⟩)
      (fun p hp => by
        cases hp with
        | head => exact Or.inr ⟨.intType, rfl⟩
        | tail _ hp2 =>
            cases hp2 with
            | head => exact Or.inl ⟨1, rfl⟩
            | tail _ hp3 => exact nomatch hp3)
      (by decide)).1
  exact h.trans rfl

/-- C2 counterexample: a dict with `min_length = 5` whose single item fails
value validation reports only that item error — the length-constraint
error does not co-occur in the report. -/
theorem C2_counterexample_no_length_error :
    DictValidator.validate_json (ω := Int)
        (fun _ => .ok 0) (fun _ => .error (ValError.new .intType))
        (some 5) none false (ValidationState.new ⟨none⟩) (.obj [("a", .null)])
      = .error (.lineErrors [⟨.intType, [.key "a"]⟩]) ∧
    (∀ e ∈ [ValLineError.mk .intType [.key "a"]],
        e.errorType ≠ .tooShort ∧ e.errorType ≠ .tooLong) := by
  exact ⟨rfl, by decide⟩

/-- C2 (amended): length bounds are evaluated only after full iteration
over all items, but only when no item error was collected: with item
errors present the report is exactly the complete list of per-item errors
for every choice of bounds (a length error never co-occurs with item
errors), and with no item errors the bounds are checked against the final
output size. -/
theorem C2_dict_length_after_iteration_amended {κ ν ω : Type} [DecidableEq ω]
    (as_loc_item : κ → LocItem) (keyV : κ → ValResult ω) (valV : ν → ValResult ω)
    (items : List (κ × ν)) (min_length max_length : Option Nat)
    (hclean : ∀ p ∈ items, item_clean keyV valV p) :
    (items.flatMap (item_errors as_loc_item keyV valV) = [] →
      validate_generic_mapping as_loc_item keyV valV (items.map .ok) min_length max_length
        = match length_check ((items.foldl (item_output keyV valV) []).length)
              min_length max_length with
          | some et => .error (ValError.new et)
          | none => .ok (items.foldl (item_output keyV valV) [])) ∧
    (items.flatMap (item_errors as_loc_item keyV valV) ≠ [] →
      validate_generic_mapping as_loc_item keyV valV (items.map .ok) min_length max_length
        = .error (.lineErrors (items.flatMap (item_errors as_loc_item keyV valV)))) := by
  have hmain := validate_generic_mapping_clean as_loc_item keyV valV items
    min_length max_length hclean
  constructor
  · intro hempty
    rw [hmain, hempty]
    rfl
  · intro hne
    rw [hmain, if_neg (by simpa [List.isEmpty_iff] using hne)]

/-- C2 witness: the amended statement at a concrete input — the same
failing single-item dict with `min_length = 5` yields exactly the item
error. -/
theorem C2_dict_length_after_iteration_amended_witness :
    validate_generic_mapping (ω := Int) (fun s : String => LocItem.key s)
        (fun _ => .ok 0) (fun _ : JsonValue => .error (ValError.new .intType))
        ([(("a" : String), JsonValue.null)].map .ok) (some 5) none
      = .error (.lineErrors [⟨.intType, [.key "a"]⟩]) := by
  have h := (C2_dict_length_after_iteration_amended (ω := Int)
      (fun s : String => LocItem.key s)
      (fun _ => .ok 0) (fun _ : JsonValue => .error (ValError.new .intType))
      [(("a" : String), JsonValue.null)] (some 5) none
      (fun p _ => ⟨(fun _ h => nomatch h), (fun _ h => nomatch h)⟩)).2
      (by decide)
  exact h.trans rfl

/-- C8: a fatal/internal child error aborts the whole validation
immediately and is never merged into the recoverable error list: the dict
loop returns it as-is from the key position and from the value position,
validating nothing after it (the remaining items are arbitrary), and the
date validator returns an internal date-extraction error without
attempting the datetime fallback (the datetime behavior is arbitrary). -/
theorem C8_internal_error_aborts :
    (∀ (κ ν ω : Type) [DecidableEq ω] (as_loc_item : κ → LocItem)
        (keyV : κ → ValResult ω) (valV : ν → ValResult ω)
        (pre : List (κ × ν)) (k : κ) (v : ν) (post : List (ValResult (κ × ν)))
        (min_length max_length : Option Nat) (msg : String),
        (∀ p ∈ pre, item_clean keyV valV p) →
        keyV k = .error (.internalErr msg) →
        validate_generic_mapping as_loc_item keyV valV
            (pre.map .ok ++ .ok (k, v) :: post) min_length max_length
          = .error (.internalErr msg)) ∧
    (∀ (κ ν ω : Type) [DecidableEq ω] (as_loc_item : κ → LocItem)
        (keyV : κ → ValResult ω) (valV : ν → ValResult ω)
        (pre : List (κ × ν)) (k : κ) (v : ν) (post : List (ValResult (κ × ν)))
        (min_length max_length : Option Nat) (msg : String),
        (∀ p ∈ pre, item_clean keyV valV p) →
        (∀ m, keyV k ≠ .error (.internalErr m)) →
        keyV k ≠ .error .omit →
        valV v = .error (.internalErr msg) →
        validate_generic_mapping as_loc_item keyV valV
            (pre.map .ok ++ .ok (k, v) :: post) min_length max_length
          = .error (.internalErr msg)) ∧
    (∀ (vd : Bool → ValResult Date)
        (vdt : Bool → MicrosecondsPrecisionOverflowBehavior → ValResult DateTime)
        (self_strict : Bool) (constraints : Option DateConstraints)
        (extra : Extra) (today : Date) (msg : String),
        vd (extra.strict.getD self_strict) = .error (.internalErr msg) →
        DateValidator.validate ⟨self_strict, constraints⟩ extra today ⟨vd, vdt⟩
          = .error (.internalErr msg)) := by
  refine ⟨?_, ?_, ?_⟩
  · intro κ ν ω inst as_loc_item keyV valV pre k v post minL maxL msg hpre hk
    unfold validate_generic_mapping
    rw [validate_mapping_items_internal_key as_loc_item keyV valV pre k v post [] [] msg
      hpre hk]
    rfl
  · intro κ ν ω inst as_loc_item keyV valV pre k v post minL maxL msg hpre hki hko hv
    unfold validate_generic_mapping
    rw [validate_mapping_items_internal_value as_loc_item keyV valV pre k v post [] [] msg
      hpre hki hko hv]
    rfl
  · intro vd vdt self_strict constraints extra today msg h
    simp [DateValidator.validate, h, Bind.bind, Except.bind]

/-- C8 witness: concrete internal errors — a key validator failing
internally on the single item of a JSON-shaped mapping, and a date
extraction failing internally — abort with exactly that error. -/
theorem C8_internal_error_aborts_witness :
    validate_generic_mapping (ω := Int) (fun s : String => LocItem.key s)
        (fun _ => .error (.internalErr "recursion limit"))
        (fun _ : JsonValue => .ok 0)
        (([] : List (String × JsonValue)).map .ok
          ++ .ok (("a" : String), JsonValue.null) :: []) none none
      = .error (.internalErr "recursion limit") ∧
    DateValidator.validate ⟨false, none⟩ ⟨none⟩ ⟨2024, 1, 1⟩
        ⟨fun _ => .error (.internalErr "recursion limit"),
          fun _ _ => .ok ⟨⟨2023, 1, 1⟩, ⟨0, 0, 0, 0, none⟩⟩⟩
      = .error (.internalErr "recursion limit") := by
  constructor
  · exact C8_internal_error_aborts.1 String JsonValue Int (fun s => LocItem.key s)
      (fun _ => .error (.internalErr "recursion limit")) (fun _ => .ok 0)
      [] "a" .null [] none none "recursion limit" (fun p hp => nomatch hp) rfl
  · exact C8_internal_error_aborts.2.2 (fun _ => .error (.internalErr "recursion limit"))
      (fun _ _ => .ok ⟨⟨2023, 1, 1⟩, ⟨0, 0, 0, 0, none⟩⟩) false none ⟨none⟩ ⟨2024, 1, 1⟩
      "recursion limit" rfl

/-- C3 counterexample: a list of one failing item with `min_items = 3`
returns the single `ListTooShort` bound error; the failing item is never
validated and its error is not reported, so bounds are NOT checked after
iteration as they are for dicts. -/
theorem C3_counterexample_bounds_short_circuit :
    ListValidator.validation_logic (ι := Int)
        (some (fun _ => .error (ValError.new .intType))) (some 3) none [0]
      = .error (.lineErrors [⟨.listTooShort, []⟩]) := by
  rfl

/-- C3 (amended): the list validator checks its length bounds BEFORE item
validation: a violated bound short-circuits with a single
`ListTooShort`/`ListTooLong` error for every item validator (no item is
validated and no per-item error is reported), unlike the dict validator;
when the bounds pass and no item validator is configured the items are
passed through as a copy. -/
theorem C3_list_bounds_before_items_amended :
    (∀ (ι : Type) (item_validator : Option (ι → ValResult ι))
        (min_items max_items : Option Nat) (list : List ι) (m : Nat),
        min_items = some m → list.length < m →
        ListValidator.validation_logic item_validator min_items max_items list
          = .error (ValError.new .listTooShort)) ∧
    (∀ (ι : Type) (item_validator : Option (ι → ValResult ι))
        (min_items max_items : Option Nat) (list : List ι) (m : Nat),
        (∀ m2, min_items = some m2 → ¬list.length < m2) →
        max_items = some m → m < list.length →
        ListValidator.validation_logic item_validator min_items max_items list
          = .error (ValError.new .listTooLong)) ∧
    (∀ (ι : Type) (min_items max_items : Option Nat) (list : List ι),
        (∀ m, min_items = some m → ¬list.length < m) →
        (∀ m, max_items = some m → ¬m < list.length) →
        ListValidator.validation_logic none min_items max_items list = .ok list) := by
  refine ⟨?_, ?_, ?_⟩
  · intro ι item_validator minI maxI list m hmin hlt
    subst hmin
    simp [ListValidator.validation_logic, hlt]
  · intro ι item_validator minI maxI list m hmin hmax hgt
    subst hmax
    have hminfalse : (minI.map (fun x => decide (list.length < x))).getD false = false := by
      rcases minI with _ | m2
      · rfl
      · simpa using hmin m2 rfl
    simp [ListValidator.validation_logic, hminfalse, hgt]
  · intro ι minI maxI list hmin hmax
    have hminfalse : (minI.map (fun x => decide (list.length < x))).getD false = false := by
      rcases minI with _ | m2
      · rfl
      · simpa using hmin m2 rfl
    have hmaxfalse : (maxI.map (fun x => decide (x < list.length))).getD false = false := by
      rcases maxI with _ | m2
      · rfl
      · simpa using hmax m2 rfl
    simp [ListValidator.validation_logic, hminfalse, hmaxfalse]

/-- C3 witness: the amended statement at concrete inputs — a too-long list
short-circuits with the bound error under a validator that would fail
every item, and a list with no item validator passes through unchanged. -/
theorem C3_list_bounds_before_items_amended_witness :
    ListValidator.validation_logic (ι := Int)
        (some (fun _ => .error (ValError.new .intType))) none (some 1) [0, 1]
      = .error (ValError.new .listTooLong) ∧
    ListValidator.validation_logic (ι := Int) none none none [7, 8]
      = .ok [7, 8] := by
  constructor
  · exact C3_list_bounds_before_items_amended.2.1 Int
      (some (fun _ => .error (ValError.new .intType))) none (some 1) [0, 1] 1
      (fun m2 h => nomatch h) rfl (by decide)
  · exact C3_list_bounds_before_items_amended.2.2 Int none none [7, 8]
      (fun m h => nomatch h) (fun m h => nomatch h)

/-- C9 witness: the amended rules evaluated at concrete numeric inputs. -/
theorem C9_numeric_bool_amended_witness :
    (JsonValue.int 5).validate_bool false = .error (ValError.new .boolType) ∧
    (JsonValue.float ⟨true, false, 0⟩).validate_bool false
        = .error (ValError.new .boolType) ∧
    (JsonValue.float ⟨true, true, 1⟩).validate_bool false
        = .ok (ValidationMatch.lax true) := by
  refine ⟨C9_numeric_bool_amended.2.2.2.2.2.2.1 5 (by decide) (by decide),
    C9_numeric_bool_amended.2.2.2.2.2.2.2.2.2.2.1 ⟨true, false, 0⟩ rfl rfl,
    C9_numeric_bool_amended.2.2.2.2.2.2.2.2.1 ⟨true, true, 1⟩ rfl rfl rfl⟩

end PydanticCore
